import Mathlib

/-!
Shallow embedding of the device-management core of airscan-device.c
(sane-airscan-wsd): device registry, flag lifecycle, sequential address
probing, HTTP completion tracking, option model, and the bounded-wait
device listing API, together with theorems checking the specification's
claims against this embedding.
-/

namespace Airscan

/-- Device lifecycle flags, mirroring the C bitset DEVICE_LISTED,
DEVICE_READY, DEVICE_HALTED, DEVICE_INIT_WAIT. -/
structure Flags where
  listed : Bool
  ready : Bool
  halted : Bool
  init_wait : Bool
deriving DecidableEq, Repr

/-- Bitwise intersection test `data->flags & dev->flags` performed by
device_table_foreach_callback, one conjunct per flag bit. -/
def flagsMatch (mask f : Flags) : Bool :=
  (mask.listed && f.listed) || (mask.ready && f.ready) ||
  (mask.halted && f.halted) || (mask.init_wait && f.init_wait)

/-- Mask selecting only the DEVICE_READY bit. -/
def maskReady : Flags := ⟨false, true, false, false⟩

/-- Mask selecting only the DEVICE_INIT_WAIT bit. -/
def maskInitWait : Flags := ⟨false, false, false, true⟩

/-- A device entry as seen by the listing path: its name, the vendor and
model from its negotiated capabilities, and its flags. -/
structure Device where
  name : String
  vendor : String
  model : String
  flags : Flags
deriving DecidableEq, Repr

/-- device_table_collect: every device whose flag set intersects the mask
(g_tree_foreach preserves the table, so this is a filter). -/
def device_table_collect (mask : Flags) (table : List Device) : List Device :=
  table.filter (fun d => flagsMatch mask d.flags)

/-- device_table_ready: true when no device has DEVICE_INIT_WAIT set. -/
def device_table_ready (table : List Device) : Bool :=
  (device_table_collect maskInitWait table).length == 0

/-- One SANE_Device entry as built by device_list_get. -/
structure SaneDevice where
  name : String
  vendor : String
  model : String
  ty : String
deriving DecidableEq, Repr

/-- Constant DEVICE_TABLE_READY_TIMEOUT, seconds. -/
def DEVICE_TABLE_READY_TIMEOUT : Nat := 5

/-- Glib G_TIME_SPAN_SECOND: one second in microseconds of monotonic time. -/
def G_TIME_SPAN_SECOND : Nat := 1000000

/-- Environment seen by device_list_get: the registry contents and the
zeroconf initial-scan flag as functions of monotonic time, plus the wake
schedule of the condition variable; eloop_cond_wait always returns at a
strictly later monotonic time. -/
structure WaitEnv where
  regAt : Nat → List Device
  scanAt : Nat → Bool
  wake : Nat → Nat
  wake_gt : ∀ t, t < wake t

/-- The wait-loop condition of device_list_get:
`!device_table_ready() || zeroconf_init_scan()`. -/
def waitPred (env : WaitEnv) (t : Nat) : Bool :=
  !device_table_ready (env.regAt t) || env.scanAt t

/-- The wait loop of device_list_get: while the predicate holds and the
deadline has not passed, wait on the condition variable, which returns at
the wake time but never after the absolute deadline. The result is the
monotonic time at which the loop exits. -/
def device_list_wait (env : WaitEnv) (deadline t : Nat) : Nat :=
  if waitPred env t = true ∧ t < deadline then
    device_list_wait env deadline (min (env.wake t) deadline)
  else t
termination_by deadline - t
decreasing_by
  have h := env.wake_gt t
  omega

/-- The list built by device_list_get after the wait: one entry per
DEVICE_READY device, copying name, vendor, model, with the fixed type. -/
def device_list_snapshot (table : List Device) : List SaneDevice :=
  (device_table_collect maskReady table).map
    (fun d => ⟨d.name, d.vendor, d.model, "eSCL network scanner"⟩)

/-- device_list_get: wait (bounded by 5 seconds past the entry time) until
the table is ready and the initial scan is finished, then snapshot the
DEVICE_READY devices at the exit moment. -/
def device_list_get (env : WaitEnv) (now : Nat) : List SaneDevice :=
  device_list_snapshot
    (env.regAt (device_list_wait env
      (now + DEVICE_TABLE_READY_TIMEOUT * G_TIME_SPAN_SECOND) now))

/-- Helper: the wait loop exits no later than the deadline, and at exit
either the wait predicate is false or the deadline has been reached. -/
theorem device_list_wait_exit (env : WaitEnv) (deadline : Nat) :
    ∀ n t, deadline - t ≤ n → t ≤ deadline →
      device_list_wait env deadline t ≤ deadline ∧
      (waitPred env (device_list_wait env deadline t) = false ∨
        device_list_wait env deadline t = deadline) := by
  intro n
  induction n with
  | zero =>
      intro t h1 h2
      have ht : t = deadline := by omega
      rw [device_list_wait]
      have hcond : ¬(waitPred env t = true ∧ t < deadline) := by
        intro hc
        omega
      rw [if_neg hcond]
      exact ⟨h2, Or.inr ht⟩
  | succ n ih =>
      intro t h1 h2
      rw [device_list_wait]
      by_cases hc : waitPred env t = true ∧ t < deadline
      · rw [if_pos hc]
        have hw := env.wake_gt t
        refine ih (min (env.wake t) deadline) (by omega) (by omega)
      · rw [if_neg hc]
        refine ⟨h2, ?_⟩
        by_cases hp : waitPred env t = true
        · have : ¬ t < deadline := fun hlt => hc ⟨hp, hlt⟩
          exact Or.inr (by omega)
        · exact Or.inl (by simpa using hp)

/-- Helper: the table is not ready exactly when some device still has the
InitWait flag set. -/
theorem device_table_ready_false_iff (table : List Device) :
    device_table_ready table = false ↔ ∃ d ∈ table, d.flags.init_wait = true := by
  simp only [device_table_ready, device_table_collect, beq_eq_false_iff_ne, ne_eq,
    List.length_eq_zero, List.filter_eq_nil_iff]
  push_neg
  constructor
  · rintro ⟨d, hd, hp⟩
    refine ⟨d, hd, ?_⟩
    simpa [flagsMatch, maskInitWait] using hp
  · rintro ⟨d, hd, hp⟩
    exact ⟨d, hd, by simp [flagsMatch, maskInitWait, hp]⟩

/-- C1: device_list_get waits only while some device has InitWait set or
the zeroconf initial scan is still running, rechecking this predicate on
every iteration against the fixed deadline of 5 seconds past entry; the
loop exits no later than the deadline, exits exactly when the predicate is
false or the deadline is reached (whichever first), and the returned list
is a snapshot of precisely the devices whose Ready flag is set at the exit
moment, each entry carrying copied name, vendor, model and the fixed type
label. -/
theorem device_list_get_bounded_ready_snapshot (env : WaitEnv) (now : Nat) :
    (∀ t, waitPred env t = true ↔
      ((∃ d ∈ env.regAt t, d.flags.init_wait = true) ∨ env.scanAt t = true)) ∧
    device_list_wait env (now + DEVICE_TABLE_READY_TIMEOUT * G_TIME_SPAN_SECOND) now ≤
      now + DEVICE_TABLE_READY_TIMEOUT * G_TIME_SPAN_SECOND ∧
    (waitPred env (device_list_wait env
        (now + DEVICE_TABLE_READY_TIMEOUT * G_TIME_SPAN_SECOND) now) = false ∨
      device_list_wait env (now + DEVICE_TABLE_READY_TIMEOUT * G_TIME_SPAN_SECOND) now =
        now + DEVICE_TABLE_READY_TIMEOUT * G_TIME_SPAN_SECOND) ∧
    device_list_get env now =
      ((env.regAt (device_list_wait env
          (now + DEVICE_TABLE_READY_TIMEOUT * G_TIME_SPAN_SECOND) now)).filter
        (fun d => d.flags.ready)).map
        (fun d => ⟨d.name, d.vendor, d.model, "eSCL network scanner"⟩) := by
  refine ⟨?_, ?_, ?_, ?_⟩
  · intro t
    constructor
    · intro h
      simp only [waitPred, Bool.or_eq_true, Bool.not_eq_true'] at h
      rcases h with h | h
      · exact Or.inl ((device_table_ready_false_iff _).mp h)
      · exact Or.inr h
    · intro h
      simp only [waitPred, Bool.or_eq_true, Bool.not_eq_true']
      rcases h with h | h
      · exact Or.inl ((device_table_ready_false_iff _).mpr h)
      · exact Or.inr h
  · exact (device_list_wait_exit env _ _ now le_rfl (by omega)).1
  · exact (device_list_wait_exit env _ _ now le_rfl (by omega)).2
  · simp only [device_list_get, device_list_snapshot, device_table_collect,
      flagsMatch, maskReady]
    congr 1
    apply List.filter_congr
    intro d _
    simp

/-- One zeroconf candidate address (zeroconf_addrinfo): protocol family,
the literal text printed by avahi_address_snprint, the link-local flag,
the interface index, the port, and the optional resource path. -/
structure ZeroconfAddr where
  isIpv6 : Bool
  literal : String
  linklocal : Bool
  ifindex : Nat
  port : Nat
  rs : Option String
deriving DecidableEq, Repr

/-- The str_addr buffer built by device_probe_address: the plain literal
for IPv4; for IPv6 the bracketed literal, with the RFC 6874 escaped
percent and the interface index appended when the address is
link-local. -/
def str_addr (a : ZeroconfAddr) : String :=
  if a.isIpv6 = false then a.literal
  else if a.linklocal then
    "[" ++ a.literal ++ ("%25" ++ toString a.ifindex) ++ "]"
  else
    "[" ++ a.literal ++ "]"

/-- The base URL string built by device_probe_address, with and without the
resource-path component; both forms end in the '/' separator. -/
def build_url (a : ZeroconfAddr) : String :=
  match a.rs with
  | some rs => "http://" ++ str_addr a ++ ":" ++ toString a.port ++ "/" ++ rs ++ "/"
  | none => "http://" ++ str_addr a ++ ":" ++ toString a.port ++ "/"

/-- C9: for every probed candidate, an IPv4 candidate's literal is the
plain address; an IPv6 candidate's literal is bracketed; the literal
carries the escaped-percent zone suffix with the interface index exactly
when the IPv6 candidate is link-local (for a non-link-local candidate no
percent character occurs at all, provided the printed address itself has
none); and the resulting base URL always ends with the '/' separator. -/
theorem probe_address_url_format (a : ZeroconfAddr)
    (hlit : '%' ∉ a.literal.data) :
    (a.isIpv6 = false → str_addr a = a.literal) ∧
    (a.isIpv6 = true → ∃ mid, str_addr a = "[" ++ mid ++ "]") ∧
    (a.isIpv6 = true → a.linklocal = true →
      str_addr a = "[" ++ a.literal ++ ("%25" ++ toString a.ifindex) ++ "]") ∧
    (a.isIpv6 = true → a.linklocal = false → '%' ∉ (str_addr a).data) ∧
    (∃ s, build_url a = s ++ "/") := by
  refine ⟨?_, ?_, ?_, ?_, ?_⟩
  · intro h
    simp [str_addr, h]
  · intro h
    by_cases hl : a.linklocal
    · exact ⟨a.literal ++ ("%25" ++ toString a.ifindex),
        by simp [str_addr, h, hl, String.append_assoc]⟩
    · exact ⟨a.literal, by simp [str_addr, h, hl]⟩
  · intro h hl
    simp [str_addr, h, hl]
  · intro h hl
    simp only [str_addr, h, hl]
    rw [if_neg (by simp), if_neg (by simp [hl])]
    simp only [String.data_append]
    intro hmem
    rcases List.mem_append.mp hmem with hmem | hmem
    · rcases List.mem_append.mp hmem with hmem | hmem
      · revert hmem
        decide
      · exact hlit hmem
    · revert hmem
      decide
  · cases hrs : a.rs with
    | some rs =>
        exact ⟨"http://" ++ str_addr a ++ ":" ++ toString a.port ++ "/" ++ rs,
          by simp [build_url, hrs]⟩
    | none =>
        exact ⟨"http://" ++ str_addr a ++ ":" ++ toString a.port,
          by simp [build_url, hrs]⟩

/-- Witness for probe_address_url_format at a concrete link-local IPv6
candidate. -/
theorem probe_address_url_format_witness :
    '%' ∉ ("fe80::1" : String).data ∧
    (str_addr ⟨true, "fe80::1", true, 2, 8080, none⟩ =
      "[" ++ "fe80::1" ++ ("%25" ++ toString (2 : Nat)) ++ "]") := by
  have h := probe_address_url_format ⟨true, "fe80::1", true, 2, 8080, none⟩ (by decide)
  exact ⟨by decide, h.2.2.1 rfl rfl⟩

/-- A SANE_Range: minimum, maximum, quantization. -/
structure SaneRange where
  rmin : Int
  rmax : Int
  quant : Int
deriving DecidableEq, Repr

/-- One source profile of a capability document (devcaps_source): supported
color modes and resolutions, and the four geometry ranges. -/
structure DevcapsSource where
  colormodes : List Int
  resolutions : List Int
  tl_x_range : SaneRange
  tl_y_range : SaneRange
  br_x_range : SaneRange
  br_y_range : SaneRange
deriving DecidableEq, Repr

/-- A parsed capability record (devcaps): vendor, model, and the source
profiles indexed by the OPT_SOURCE preference order (`none` marks an
absent profile). -/
structure DevCaps where
  vendor : String
  model : String
  src : List (Option DevcapsSource)
deriving DecidableEq, Repr

/-- Result of interpreting one capability fetch: a parsed record, or the
textual error that devcaps_parse or the earlier checks produced. -/
inductive CapsOutcome where
  | ok (caps : DevCaps)
  | err (msg : String)
deriving DecidableEq, Repr

/-- True exactly on the success alternative. -/
def capsOk : CapsOutcome → Bool
  | .ok _ => true
  | .err _ => false

/-- An HTTP completion as seen by the callback: status code and body. -/
structure HttpResponse where
  status : Nat
  body : List Nat
deriving DecidableEq, Repr

/-- libsoup SOUP_STATUS_IS_SUCCESSFUL: 2xx status codes. -/
def SOUP_STATUS_IS_SUCCESSFUL (s : Nat) : Bool :=
  decide (200 ≤ s) && decide (s < 300)

/-- The interpretation steps of device_scanner_capabilities_callback before
the branch on err: reject a non-2xx status, then hand the body to the XML
parser, then to devcaps_parse; the parsers are the external collaborators
and enter as parameters. -/
def scanner_capabilities_result {α : Type} (xmlParse : List Nat → Option α)
    (devcapsParse : α → CapsOutcome) (resp : HttpResponse) : CapsOutcome :=
  if SOUP_STATUS_IS_SUCCESSFUL resp.status = false then
    .err "failed to load ScannerCapabilities"
  else
    match xmlParse resp.body with
    | none => .err "failed to parse ScannerCapabilities response XML"
    | some doc => devcapsParse doc

/-- Terminal result of the per-device probing state machine. -/
inductive ProbeOutcome where
  | ready (caps : DevCaps) (addr : ZeroconfAddr)
  | removed
deriving DecidableEq, Repr

/-- True exactly on the ready alternative. -/
def ProbeOutcome.isReady : ProbeOutcome → Bool
  | .ready _ _ => true
  | .removed => false

/-- Full record of one probing run: the addresses attempted in order, the
base URL in force afterwards, and the terminal outcome. -/
structure ProbeTrace where
  attempts : List ZeroconfAddr
  base_url : Option String
  outcome : ProbeOutcome
deriving DecidableEq, Repr

/-- The loop formed by device_probe_address and
device_scanner_capabilities_callback: set the base URL from the current
candidate, fetch; on success the device is ready at that candidate; on
failure advance to the next candidate if one remains, otherwise the device
is removed (device_del). -/
def probe_run (fetch : ZeroconfAddr → CapsOutcome) :
    List ZeroconfAddr → Option String → ProbeTrace
  | [], url => ⟨[], url, .removed⟩
  | a :: rest, _ =>
    match fetch a with
    | .ok caps => ⟨[a], some (build_url a), .ready caps a⟩
    | .err _ =>
        let r := probe_run fetch rest (some (build_url a))
        ⟨a :: r.attempts, r.base_url, r.outcome⟩

/-- Helper: a probing run ends ready exactly when some candidate's fetch
interpretation succeeds. -/
theorem probe_run_ready_iff (fetch : ZeroconfAddr → CapsOutcome) :
    ∀ (addrs : List ZeroconfAddr) (url : Option String),
      ((probe_run fetch addrs url).outcome.isReady = true ↔
        ∃ a ∈ addrs, capsOk (fetch a) = true) := by
  intro addrs
  induction addrs with
  | nil => intro url; simp [probe_run, ProbeOutcome.isReady]
  | cons a rest ih =>
      intro url
      cases hfa : fetch a with
      | ok caps =>
          simp [probe_run, hfa, ProbeOutcome.isReady, capsOk]
      | err m =>
          simp only [probe_run, hfa, List.mem_cons]
          rw [ih (some (build_url a))]
          constructor
          · rintro ⟨b, hb, hok⟩
            exact ⟨b, Or.inr hb, hok⟩
          · rintro ⟨b, hb, hok⟩
            rcases hb with rfl | hb
            · rw [hfa] at hok
              exact absurd hok (by simp [capsOk])
            · exact ⟨b, hb, hok⟩

/-- Helper: a probing outcome is either ready or removed. -/
theorem probe_outcome_cases (o : ProbeOutcome) :
    (∃ caps addr, o = .ready caps addr) ∨ o = .removed := by
  cases o with
  | ready caps addr => exact Or.inl ⟨caps, addr, rfl⟩
  | removed => exact Or.inr rfl

/-- C2: for a device created from a found event with a non-empty address
list, the interpretation of one fetch succeeds exactly when the HTTP
status is 2xx, the body parses as XML, and devcaps_parse accepts it; the
probing run ends ready exactly when some candidate's fetch interpretation
succeeds; and when every candidate fails (HTTP failure, XML parse failure
or capability-validation error alike) the run ends with the device removed
- a terminal outcome, with no retry. -/
theorem device_ready_iff_some_address_succeeds {α : Type}
    (xmlParse : List Nat → Option α) (devcapsParse : α → CapsOutcome)
    (respOf : ZeroconfAddr → HttpResponse) (addrs : List ZeroconfAddr)
    (hne : addrs ≠ []) :
    (∀ resp, capsOk (scanner_capabilities_result xmlParse devcapsParse resp) = true ↔
      (SOUP_STATUS_IS_SUCCESSFUL resp.status = true ∧
        ∃ doc, xmlParse resp.body = some doc ∧ capsOk (devcapsParse doc) = true)) ∧
    ((probe_run (fun a => scanner_capabilities_result xmlParse devcapsParse (respOf a))
        addrs none).outcome.isReady = true ↔
      ∃ a ∈ addrs,
        capsOk (scanner_capabilities_result xmlParse devcapsParse (respOf a)) = true) ∧
    ((∀ a ∈ addrs,
        capsOk (scanner_capabilities_result xmlParse devcapsParse (respOf a)) = false) →
      (probe_run (fun a => scanner_capabilities_result xmlParse devcapsParse (respOf a))
        addrs none).outcome = .removed) := by
  refine ⟨?_, ?_, ?_⟩
  · intro resp
    by_cases hs : SOUP_STATUS_IS_SUCCESSFUL resp.status = false
    · simp [scanner_capabilities_result, hs, capsOk]
    · rw [Bool.not_eq_false] at hs
      cases hx : xmlParse resp.body with
      | none => simp [scanner_capabilities_result, hs, hx, capsOk]
      | some doc => simp [scanner_capabilities_result, hs, hx, capsOk]
  · exact probe_run_ready_iff _ addrs none
  · intro hall
    rcases probe_outcome_cases (probe_run
        (fun a => scanner_capabilities_result xmlParse devcapsParse (respOf a))
        addrs none).outcome with ⟨caps, addr, hr⟩ | hr
    · have := (probe_run_ready_iff _ addrs none).mp (by rw [hr]; rfl)
      rcases this with ⟨a, ha, hok⟩
      rw [hall a ha] at hok
      exact absurd hok (by simp)
    · exact hr

/-- Concrete capability record used by the witnesses. -/
def exCaps : DevCaps :=
  ⟨"ExampleVendor", "ExampleModel",
    [some ⟨[1], [300], ⟨0, 0, 0⟩, ⟨0, 0, 0⟩, ⟨0, 200, 0⟩, ⟨0, 300, 0⟩⟩]⟩

/-- Concrete IPv4 candidate addresses used by the witnesses. -/
def exAddrA : ZeroconfAddr := ⟨false, "192.0.2.1", false, 0, 1, none⟩

/-- Second concrete candidate. -/
def exAddrB : ZeroconfAddr := ⟨false, "192.0.2.2", false, 0, 2, none⟩

/-- Third concrete candidate. -/
def exAddrC : ZeroconfAddr := ⟨false, "192.0.2.3", false, 0, 3, none⟩

/-- Concrete response schedule: the candidates at ports 1 and 2 answer
with HTTP 500, the candidate at port 3 answers 200. -/
def exRespOf (a : ZeroconfAddr) : HttpResponse :=
  if a.port ≤ 2 then ⟨500, []⟩ else ⟨200, []⟩

/-- Trivial XML parse stand-in used by the witnesses. -/
def exXmlParse (_ : List Nat) : Option Unit := some ()

/-- Trivial devcaps parse stand-in used by the witnesses. -/
def exCapsParse (_ : Unit) : CapsOutcome := .ok exCaps

/-- Witness for device_ready_iff_some_address_succeeds on a concrete
one-candidate list. -/
theorem device_ready_iff_witness :
    ([exAddrC] : List ZeroconfAddr) ≠ [] ∧
    ((probe_run (fun a => scanner_capabilities_result exXmlParse exCapsParse (exRespOf a))
        [exAddrC] none).outcome.isReady = true ↔
      ∃ a ∈ [exAddrC],
        capsOk (scanner_capabilities_result exXmlParse exCapsParse (exRespOf a)) = true) :=
  ⟨by simp,
    (device_ready_iff_some_address_succeeds exXmlParse exCapsParse exRespOf
      [exAddrC] (by simp)).2.1⟩

/-- C3: probing visits the captured list strictly sequentially in order;
with candidates A, B, C where the fetch interpretations at A and B fail
and the one at C succeeds, exactly three attempts occur, in the order A
then B then C, the outcome is ready at C, and the base URL in force
afterwards is the one built from C. -/
theorem probe_sequential_in_order {α : Type}
    (xmlParse : List Nat → Option α) (devcapsParse : α → CapsOutcome)
    (respOf : ZeroconfAddr → HttpResponse)
    (A B C : ZeroconfAddr) (caps : DevCaps)
    (hA : capsOk (scanner_capabilities_result xmlParse devcapsParse (respOf A)) = false)
    (hB : capsOk (scanner_capabilities_result xmlParse devcapsParse (respOf B)) = false)
    (hC : scanner_capabilities_result xmlParse devcapsParse (respOf C) = .ok caps) :
    probe_run (fun a => scanner_capabilities_result xmlParse devcapsParse (respOf a))
      [A, B, C] none = ⟨[A, B, C], some (build_url C), .ready caps C⟩ := by
  cases hfa : scanner_capabilities_result xmlParse devcapsParse (respOf A) with
  | ok c => rw [hfa] at hA; exact absurd hA (by simp [capsOk])
  | err mA =>
      cases hfb : scanner_capabilities_result xmlParse devcapsParse (respOf B) with
      | ok c => rw [hfb] at hB; exact absurd hB (by simp [capsOk])
      | err mB => simp [probe_run, hfa, hfb, hC]

/-- Witness for probe_sequential_in_order at the concrete candidates. -/
theorem probe_sequential_in_order_witness :
    capsOk (scanner_capabilities_result exXmlParse exCapsParse (exRespOf exAddrA)) = false ∧
    capsOk (scanner_capabilities_result exXmlParse exCapsParse (exRespOf exAddrB)) = false ∧
    scanner_capabilities_result exXmlParse exCapsParse (exRespOf exAddrC) = .ok exCaps ∧
    probe_run (fun a => scanner_capabilities_result exXmlParse exCapsParse (exRespOf a))
      [exAddrA, exAddrB, exAddrC] none =
      ⟨[exAddrA, exAddrB, exAddrC], some (build_url exAddrC), .ready exCaps exAddrC⟩ :=
  ⟨by decide, by decide, by decide,
    probe_sequential_in_order exXmlParse exCapsParse exRespOf exAddrA exAddrB exAddrC
      exCaps (by decide) (by decide) (by decide)⟩

/-- libsoup SOUP_STATUS_CANCELLED. -/
def SOUP_STATUS_CANCELLED : Nat := 1

/-- Result of one run of device_http_callback: the device's pending set
afterwards, whether the per-device completion handler ran, and, when it
ran, the value it produced from the message and the already-shrunk pending
set it observed. -/
structure HttpCallbackOut (β : Type) where
  http_pending : List Nat
  handler_ran : Bool
  handler_result : Option β
deriving DecidableEq, Repr

/-- device_http_callback: when the completion status is CANCELLED nothing
happens and no handler runs; otherwise the message is removed from the
pending set (g_ptr_array_remove drops the first occurrence) and only then
is the registered handler invoked. -/
def device_http_callback {β : Type} (handler : Nat → List Nat → β)
    (status msg : Nat) (pending : List Nat) : HttpCallbackOut β :=
  if status ≠ SOUP_STATUS_CANCELLED then
    let pending2 := pending.erase msg
    ⟨pending2, true, some (handler msg pending2)⟩
  else
    ⟨pending, false, none⟩

/-- device_del's cancellation sweep: every message of the pending set is
cancelled with SOUP_STATUS_CANCELLED, so each of them later completes with
exactly that status. -/
def device_del_cancellations (pending : List Nat) : List (Nat × Nat) :=
  pending.map (fun m => (m, SOUP_STATUS_CANCELLED))

/-- C4: a completion with status CANCELLED invokes no handler and leaves
the pending set untouched; any other completion removes the message from
the pending set before the handler runs, so the handler observes a pending
set from which the message is already gone; and since removal cancels
every member of the pending set with SOUP_STATUS_CANCELLED, no completion
produced by that sweep ever runs a handler. -/
theorem http_callback_cancel_and_order {β : Type} (handler : Nat → List Nat → β)
    (status msg : Nat) (pending : List Nat) (hnd : pending.Nodup) :
    (status = SOUP_STATUS_CANCELLED →
      device_http_callback handler status msg pending = ⟨pending, false, none⟩) ∧
    (status ≠ SOUP_STATUS_CANCELLED →
      device_http_callback handler status msg pending =
        ⟨pending.erase msg, true, some (handler msg (pending.erase msg))⟩ ∧
      msg ∉ pending.erase msg) ∧
    (∀ p ∈ device_del_cancellations pending, ∀ (q : List Nat),
      (device_http_callback handler p.2 p.1 q).handler_ran = false) := by
  refine ⟨?_, ?_, ?_⟩
  · intro h
    simp [device_http_callback, h]
  · intro h
    refine ⟨by simp [device_http_callback, h], hnd.not_mem_erase⟩
  · intro p hp q
    rcases List.mem_map.mp hp with ⟨m, _, rfl⟩
    simp [device_http_callback]

/-- Witness for http_callback_cancel_and_order at a concrete pending set. -/
theorem http_callback_cancel_and_order_witness :
    ([7, 8, 9] : List Nat).Nodup ∧
    (200 ≠ SOUP_STATUS_CANCELLED →
      device_http_callback (fun _ l => l.length) 200 8 [7, 8, 9] =
        ⟨([7, 8, 9] : List Nat).erase 8, true,
          some ((fun _ l => l.length) 8 (([7, 8, 9] : List Nat).erase 8))⟩ ∧
      8 ∉ ([7, 8, 9] : List Nat).erase 8) :=
  ⟨by decide,
    (http_callback_cancel_and_order (fun _ l => l.length) 200 8 [7, 8, 9] (by decide)).2.1⟩

/-- Per-device lifecycle state for the registry transition system: the
reference count, the flag bits, whether a capability fetch is in flight
and not cancelled, and the ghost count of open handles. -/
structure DevState where
  refcnt : Nat
  flags : Flags
  pendingFetch : Bool
  handles : Nat
deriving DecidableEq, Repr

/-- device_add as performed by device_found / device_add_static: one
reference held by the table, LISTED set, INIT_WAIT set when the device
arrived during the initial scan window, and the first capability fetch
issued at once. -/
def devInit (initScan : Bool) : DevState :=
  ⟨1, ⟨true, false, false, initScan⟩, true, 0⟩

/-- The effect of device_del on one record: clear LISTED, cancel all
pending I/O, set HALTED, clear READY (INIT_WAIT is left as it was), and
drop the table's reference. -/
def device_del_state (s : DevState) : DevState :=
  ⟨s.refcnt - 1, ⟨false, false, true, s.flags.init_wait⟩, false, s.handles⟩

/-- Events one device record can undergo after creation. -/
inductive DevEvent where
  | fetchSuccess
  | fetchFailAdvance
  | fetchFailExhaust
  | del
deriving DecidableEq, Repr

/-- Transition of one device record. A capability-fetch completion has an
effect only while a fetch is actually pending: device_del cancels pending
messages and a cancelled completion never reaches
device_scanner_capabilities_callback, which the guard reflects.
device_del itself only ever runs on a listed device (device_removed goes
through device_find, device_table_purge collects table members, and the
exhaustion branch fires on a still-listed device). -/
def devStep (s : DevState) (e : DevEvent) : DevState :=
  match e with
  | .fetchSuccess =>
      if s.pendingFetch then
        ⟨s.refcnt, ⟨s.flags.listed, true, s.flags.halted, false⟩, false, s.handles⟩
      else s
  | .fetchFailAdvance => s
  | .fetchFailExhaust => if s.pendingFetch then device_del_state s else s
  | .del => if s.flags.listed then device_del_state s else s

/-- device_find: the registry tree holds exactly the listed records, so
the lookup returns the first listed record with the given name. -/
def device_find : List (String × DevState) → String → Option DevState
  | [], _ => none
  | p :: rest, name =>
      if p.1 = name ∧ p.2.flags.listed = true then some p.2
      else device_find rest name

/-- device_ref: take one more reference. -/
def device_ref (s : DevState) : DevState :=
  ⟨s.refcnt + 1, s.flags, s.pendingFetch, s.handles⟩

/-- device_open: look the name up and hand out a referenced handle only
when the device is DEVICE_READY. -/
def device_open (reg : List (String × DevState)) (name : String) :
    Option DevState :=
  match device_find reg name with
  | some s => if s.flags.ready = true then some (device_ref s) else none
  | none => none

/-- Apply an update to the record device_find would return (the first
listed record with the name), leaving everything else alone. -/
def regUpdate (f : DevState → DevState) :
    List (String × DevState) → String → List (String × DevState)
  | [], _ => []
  | p :: rest, name =>
      if p.1 = name ∧ p.2.flags.listed = true then (p.1, f p.2) :: rest
      else p :: regUpdate f rest name

/-- Apply an update to the record at a given position (a message's device
pointer resolves to one concrete record, listed or not). -/
def updateAt (reg : List (String × DevState)) (i : Nat)
    (f : DevState → DevState) : List (String × DevState) :=
  match reg.get? i with
  | some p => reg.set i (p.1, f p.2)
  | none => reg

/-- device_open's effect on the record: a reference and a handle are added
exactly when the device is ready (otherwise NULL is returned and nothing
changes). -/
def openUpd (s : DevState) : DevState :=
  if s.flags.ready = true then ⟨s.refcnt + 1, s.flags, s.pendingFetch, s.handles + 1⟩
  else s

/-- device_close on one previously granted handle: device_unref. -/
def closeUpd (s : DevState) : DevState :=
  if 0 < s.handles then ⟨s.refcnt - 1, s.flags, s.pendingFetch, s.handles - 1⟩
  else s

/-- The public operations driving the registry. -/
inductive RegEvent where
  | found (name : String) (initScan : Bool)
  | removed (name : String)
  | fetchDone (i : Nat) (e : DevEvent)
  | openDev (name : String)
  | closeDev (i : Nat)
  | purge
deriving Repr

/-- One registry transition. found ignores names already present;
removed and openDev act through device_find; a fetch completion and a
handle close act on one concrete record; purge runs device_del over every
record (the listed ones; device_del is a no-op guard otherwise). -/
def regStep (reg : List (String × DevState)) (e : RegEvent) :
    List (String × DevState) :=
  match e with
  | .found name initScan =>
      match device_find reg name with
      | some _ => reg
      | none => reg ++ [(name, devInit initScan)]
  | .removed name => regUpdate (fun s => devStep s .del) reg name
  | .fetchDone i e2 => updateAt reg i (fun s => devStep s e2)
  | .openDev name => regUpdate openUpd reg name
  | .closeDev i => updateAt reg i closeUpd
  | .purge => reg.map (fun p => (p.1, devStep p.2 .del))

/-- All records ever created after a sequence of operations, starting from
the empty registry. -/
def regRun (es : List RegEvent) : List (String × DevState) :=
  es.foldl regStep []

/-- The inductive per-record invariant: Ready and InitWait exclusive;
Halted forces not-Ready, not-Listed and no pending fetch; a record off the
table is halted; and the reference count is exactly the table's reference
(while listed) plus one per open handle. -/
def devInv (s : DevState) : Prop :=
  ¬(s.flags.ready = true ∧ s.flags.init_wait = true) ∧
  (s.flags.halted = true →
    s.flags.ready = false ∧ s.flags.listed = false ∧ s.pendingFetch = false) ∧
  (s.flags.listed = false → s.flags.halted = true) ∧
  s.refcnt = (if s.flags.listed = true then 1 else 0) + s.handles

/-- A fresh record satisfies the invariant. -/
theorem devInv_init (b : Bool) : devInv (devInit b) := by
  cases b <;> simp [devInv, devInit]

/-- Every per-record event preserves the invariant. -/
theorem devInv_step (s : DevState) (e : DevEvent) (h : devInv s) :
    devInv (devStep s e) := by
  obtain ⟨r, ⟨l, rd, hl, iw⟩, p, hn⟩ := s
  cases e <;>
    cases l <;> cases rd <;> cases hl <;> cases iw <;> cases p <;>
    simp_all [devInv, devStep, device_del_state] <;> omega

/-- Opening preserves the invariant. -/
theorem devInv_openUpd (s : DevState) (h : devInv s) : devInv (openUpd s) := by
  obtain ⟨r, ⟨l, rd, hl, iw⟩, p, hn⟩ := s
  cases l <;> cases rd <;> cases hl <;> cases iw <;> cases p <;>
    simp_all [devInv, openUpd] <;> omega

/-- Closing a handle preserves the invariant. -/
theorem devInv_closeUpd (s : DevState) (h : devInv s) : devInv (closeUpd s) := by
  obtain ⟨r, ⟨l, rd, hl, iw⟩, p, hn⟩ := s
  by_cases hh : 0 < hn <;>
    cases l <;> cases rd <;> cases hl <;> cases iw <;> cases p <;>
    simp_all [devInv, closeUpd] <;> omega

/-- Membership after regUpdate: every record is an old one or the image of
an old one. -/
theorem mem_regUpdate {f : DevState → DevState} :
    ∀ {reg : List (String × DevState)} {name : String} {p : String × DevState},
      p ∈ regUpdate f reg name → p ∈ reg ∨ ∃ q ∈ reg, p = (q.1, f q.2) := by
  intro reg
  induction reg with
  | nil => intro name p hp; simp [regUpdate] at hp
  | cons x xs ih =>
      intro name p hp
      by_cases hc : x.1 = name ∧ x.2.flags.listed = true
      · rw [regUpdate, if_pos hc] at hp
        rcases List.mem_cons.mp hp with h | h
        · exact Or.inr ⟨x, List.mem_cons_self x xs, h⟩
        · exact Or.inl (List.mem_cons_of_mem x h)
      · rw [regUpdate, if_neg hc] at hp
        rcases List.mem_cons.mp hp with h | h
        · exact Or.inl (h ▸ List.mem_cons_self x xs)
        · rcases ih h with h2 | ⟨q, hq, hpq⟩
          · exact Or.inl (List.mem_cons_of_mem x h2)
          · exact Or.inr ⟨q, List.mem_cons_of_mem x hq, hpq⟩

/-- Membership after updateAt: every record is an old one or the image of
an old one. -/
theorem mem_updateAt {reg : List (String × DevState)} {i : Nat}
    {f : DevState → DevState} {p : String × DevState}
    (hp : p ∈ updateAt reg i f) : p ∈ reg ∨ ∃ q ∈ reg, p = (q.1, f q.2) := by
  unfold updateAt at hp
  cases hq : reg.get? i with
  | none => rw [hq] at hp; exact Or.inl hp
  | some q =>
      rw [hq] at hp
      rcases List.mem_or_eq_of_mem_set hp with h | h
      · exact Or.inl h
      · exact Or.inr ⟨q, List.get?_mem hq, h⟩

/-- One registry transition preserves the per-record invariant. -/
theorem regInv_step (reg : List (String × DevState)) (e : RegEvent)
    (h : ∀ p ∈ reg, devInv p.2) : ∀ p ∈ regStep reg e, devInv p.2 := by
  cases e with
  | found name b =>
      intro p hp
      rw [regStep] at hp
      cases hf : device_find reg name with
      | some s => rw [hf] at hp; exact h p hp
      | none =>
          rw [hf] at hp
          rcases List.mem_append.mp hp with h2 | h2
          · exact h p h2
          · rcases List.mem_singleton.mp h2 with rfl
            exact devInv_init b
  | removed name =>
      intro p hp
      rw [regStep] at hp
      rcases mem_regUpdate hp with h2 | ⟨q, hq, rfl⟩
      · exact h p h2
      · exact devInv_step q.2 .del (h q hq)
  | fetchDone i e2 =>
      intro p hp
      rw [regStep] at hp
      rcases mem_updateAt hp with h2 | ⟨q, hq, rfl⟩
      · exact h p h2
      · exact devInv_step q.2 e2 (h q hq)
  | openDev name =>
      intro p hp
      rw [regStep] at hp
      rcases mem_regUpdate hp with h2 | ⟨q, hq, rfl⟩
      · exact h p h2
      · exact devInv_openUpd q.2 (h q hq)
  | closeDev i =>
      intro p hp
      rw [regStep] at hp
      rcases mem_updateAt hp with h2 | ⟨q, hq, rfl⟩
      · exact h p h2
      · exact devInv_closeUpd q.2 (h q hq)
  | purge =>
      intro p hp
      rw [regStep] at hp
      rcases List.mem_map.mp hp with ⟨q, hq, rfl⟩
      exact devInv_step q.2 .del (h q hq)

/-- Every reachable record satisfies the invariant. -/
theorem regInv (es : List RegEvent) : ∀ p ∈ regRun es, devInv p.2 := by
  have main : ∀ (es2 : List RegEvent) (reg : List (String × DevState)),
      (∀ p ∈ reg, devInv p.2) → ∀ p ∈ es2.foldl regStep reg, devInv p.2 := by
    intro es2
    induction es2 with
    | nil => intro reg h; simpa using h
    | cons e rest ih =>
        intro reg h
        exact ih (regStep reg e) (regInv_step reg e h)
  exact main es [] (by simp)

/-- C7: in every state reachable by any sequence of deviceFound,
deviceRemoved, capability-fetch completion, open, close and purge
operations, no record ever has Ready and InitWait set together, and a
Halted record has both Ready and Listed clear. -/
theorem flags_mutual_exclusion (es : List RegEvent) :
    ∀ p ∈ regRun es,
      ¬(p.2.flags.ready = true ∧ p.2.flags.init_wait = true) ∧
      (p.2.flags.halted = true →
        p.2.flags.ready = false ∧ p.2.flags.listed = false) := by
  intro p hp
  obtain ⟨h1, h2, _, _⟩ := regInv es p hp
  exact ⟨h1, fun hh => ⟨(h2 hh).1, (h2 hh).2.1⟩⟩

/-- Witness for flags_mutual_exclusion on a concrete reachable record. -/
theorem flags_mutual_exclusion_witness :
    ("x", devInit true) ∈ regRun [RegEvent.found "x" true] ∧
    (¬((devInit true).flags.ready = true ∧ (devInit true).flags.init_wait = true) ∧
      ((devInit true).flags.halted = true →
        (devInit true).flags.ready = false ∧ (devInit true).flags.listed = false)) := by
  have hm : ("x", devInit true) ∈ regRun [RegEvent.found "x" true] := by
    simp [regRun, regStep, device_find]
  exact ⟨hm, flags_mutual_exclusion [RegEvent.found "x" true] ("x", devInit true) hm⟩

/-- C8: whenever a reachable record's reference count is zero - the moment
device_unref would destroy it - the record is Halted, off the table, and
without outstanding handles, under every sequence of add, delete, open and
close operations; so destruction indeed requires removal and final release
both, in either order. -/
theorem destroy_requires_halted_and_unlisted (es : List RegEvent) :
    ∀ p ∈ regRun es, p.2.refcnt = 0 →
      p.2.flags.halted = true ∧ p.2.flags.listed = false ∧ p.2.handles = 0 := by
  intro p hp hz
  obtain ⟨_, _, h3, h4⟩ := regInv es p hp
  by_cases hl : p.2.flags.listed = true
  · rw [hl] at h4
    simp at h4
    omega
  · have hl2 : p.2.flags.listed = false := by simpa using hl
    rw [hl2] at h4
    simp at h4
    exact ⟨h3 hl2, hl2, by omega⟩

/-- Witness for destroy_requires_halted_and_unlisted: find then remove a
device; its record drops to zero references with the right flags. -/
theorem destroy_requires_halted_and_unlisted_witness :
    (("x", devStep (devInit false) .del) ∈
      regRun [RegEvent.found "x" false, RegEvent.removed "x"]) ∧
    (devStep (devInit false) .del).refcnt = 0 ∧
    ((devStep (devInit false) .del).flags.halted = true ∧
      (devStep (devInit false) .del).flags.listed = false ∧
      (devStep (devInit false) .del).handles = 0) := by
  have hm : ("x", devStep (devInit false) .del) ∈
      regRun [RegEvent.found "x" false, RegEvent.removed "x"] := by
    simp [regRun, regStep, device_find, regUpdate, devInit]
  refine ⟨hm, by simp [devStep, devInit, device_del_state], ?_⟩
  exact destroy_requires_halted_and_unlisted
    [RegEvent.found "x" false, RegEvent.removed "x"]
    ("x", devStep (devInit false) .del) hm
    (by simp [devStep, devInit, device_del_state])

/-- No two distinct records are simultaneously listed under the same name
(device_found refuses duplicate names while the earlier record is still in
the table). -/
abbrev listedUniq (reg : List (String × DevState)) : Prop :=
  reg.Pairwise (fun p q =>
    ¬(p.1 = q.1 ∧ p.2.flags.listed = true ∧ q.2.flags.listed = true))

/-- device_open restated through Option.bind, for rewriting. -/
theorem device_open_eq_find (reg : List (String × DevState)) (name : String) :
    device_open reg name = (device_find reg name).bind
      (fun s => if s.flags.ready = true then some (device_ref s) else none) := by
  rw [device_open]
  cases device_find reg name <;> rfl

/-- device_find misses exactly when no listed record has the name. -/
theorem device_find_eq_none_iff :
    ∀ (reg : List (String × DevState)) (name : String),
      device_find reg name = none ↔
        ∀ p ∈ reg, ¬(p.1 = name ∧ p.2.flags.listed = true) := by
  intro reg
  induction reg with
  | nil => intro name; simp [device_find]
  | cons x xs ih =>
      intro name
      by_cases hc : x.1 = name ∧ x.2.flags.listed = true
      · rw [device_find, if_pos hc]
        simp only [List.mem_cons]
        constructor
        · intro h; exact absurd h (by simp)
        · intro h; exact absurd hc (h x (Or.inl rfl))
      · rw [device_find, if_neg hc]
        rw [ih name]
        constructor
        · intro h p hp
          rcases List.mem_cons.mp hp with rfl | hp2
          · exact hc
          · exact h p hp2
        · intro h p hp
          exact h p (List.mem_cons_of_mem x hp)

/-- A successful device_find returns a listed record of the registry with
that name. -/
theorem device_find_mem :
    ∀ {reg : List (String × DevState)} {name : String} {s : DevState},
      device_find reg name = some s →
        (name, s) ∈ reg ∧ s.flags.listed = true := by
  intro reg
  induction reg with
  | nil => intro name s h; simp [device_find] at h
  | cons x xs ih =>
      intro name s h
      by_cases hc : x.1 = name ∧ x.2.flags.listed = true
      · rw [device_find, if_pos hc] at h
        rcases Option.some.inj h with rfl
        refine ⟨?_, hc.2⟩
        have : x = (name, x.2) := by
          cases x
          simp at hc ⊢
          exact hc.1
        rw [this] at *
        exact List.mem_cons_self _ _
      · rw [device_find, if_neg hc] at h
        rcases ih h with ⟨hm, hl⟩
        exact ⟨List.mem_cons_of_mem x hm, hl⟩

/-- Under the uniqueness invariant, a listed ready record with a name
forces device_open of that name to return a referenced handle to it. -/
theorem device_open_eq_of_mem :
    ∀ {reg : List (String × DevState)}, listedUniq reg →
      ∀ p ∈ reg, ∀ {name : String}, p.1 = name → p.2.flags.listed = true →
        p.2.flags.ready = true →
        device_open reg name = some (device_ref p.2) := by
  intro reg
  induction reg with
  | nil => intro _ p hp; simp at hp
  | cons x xs ih =>
      intro hu p hp name hn hl hr
      rcases List.pairwise_cons.mp hu with ⟨hx, hxs⟩
      rcases List.mem_cons.mp hp with rfl | hp2
      · rw [device_open_eq_find, device_find, if_pos ⟨hn, hl⟩,
          Option.some_bind, if_pos hr]
      · by_cases hc : x.1 = name ∧ x.2.flags.listed = true
        · exact absurd ⟨hc.1.trans hn.symm, hc.2, hl⟩ (hx p hp2)
        · rw [device_open_eq_find, device_find, if_neg hc]
          have := ih hxs p hp2 hn hl hr
          rw [device_open_eq_find] at this
          exact this

/-- found preserves the uniqueness invariant. -/
theorem listedUniq_found (reg : List (String × DevState)) (name : String)
    (b : Bool) (hu : listedUniq reg) :
    listedUniq (regStep reg (.found name b)) := by
  rw [regStep]
  cases hf : device_find reg name with
  | some s => exact hu
  | none =>
      show listedUniq (reg ++ [(name, devInit b)])
      refine List.pairwise_append.mpr ⟨hu, by simp, ?_⟩
      intro p hp q hq
      rcases List.mem_singleton.mp hq with rfl
      have := (device_find_eq_none_iff reg name).mp hf p hp
      rintro ⟨h1, h2, _⟩
      exact this ⟨h1, h2⟩

/-- regUpdate with a listedness-nonincreasing update preserves the
uniqueness invariant. -/
theorem listedUniq_regUpdate (f : DevState → DevState)
    (hf : ∀ s, (f s).flags.listed = true → s.flags.listed = true) :
    ∀ (reg : List (String × DevState)) (name : String),
      listedUniq reg → listedUniq (regUpdate f reg name) := by
  intro reg
  induction reg with
  | nil => intro name hu; simpa [regUpdate] using hu
  | cons x xs ih =>
      intro name hu
      rcases List.pairwise_cons.mp hu with ⟨hx, hxs⟩
      by_cases hc : x.1 = name ∧ x.2.flags.listed = true
      · rw [regUpdate, if_pos hc]
        refine List.pairwise_cons.mpr ⟨?_, hxs⟩
        intro q hq
        rintro ⟨h1, h2, h3⟩
        exact hx q hq ⟨h1, hf x.2 h2, h3⟩
      · rw [regUpdate, if_neg hc]
        refine List.pairwise_cons.mpr ⟨?_, ih name hxs⟩
        intro q hq
        rcases mem_regUpdate hq with h2 | ⟨q2, hq2, rfl⟩
        · exact hx q h2
        · rintro ⟨h1, h2, h3⟩
          exact hx q2 hq2 ⟨h1, h2, hf q2.2 h3⟩

/-- Setting one position to a listedness-nonincreasing image preserves
the uniqueness invariant. -/
theorem listedUniq_updateAt (f : DevState → DevState)
    (hf : ∀ s, (f s).flags.listed = true → s.flags.listed = true) :
    ∀ (reg : List (String × DevState)) (i : Nat),
      listedUniq reg → listedUniq (updateAt reg i f) := by
  intro reg
  induction reg with
  | nil => intro i hu; simpa [updateAt] using hu
  | cons x xs ih =>
      intro i hu
      rcases List.pairwise_cons.mp hu with ⟨hx, hxs⟩
      cases i with
      | zero =>
          show listedUniq (updateAt (x :: xs) 0 f)
          rw [updateAt]
          simp only [List.get?_cons_zero, List.set_cons_zero]
          refine List.pairwise_cons.mpr ⟨?_, hxs⟩
          intro q hq
          rintro ⟨h1, h2, h3⟩
          exact hx q hq ⟨h1, hf x.2 h2, h3⟩
      | succ n =>
          show listedUniq (updateAt (x :: xs) (n + 1) f)
          rw [updateAt]
          cases hg : xs.get? n with
          | none =>
              simp only [List.get?_cons_succ, hg]
              exact hu
          | some q =>
              simp only [List.get?_cons_succ, hg, List.set_cons_succ]
              refine List.pairwise_cons.mpr ⟨?_, ?_⟩
              · intro q2 hq2
                rcases List.mem_or_eq_of_mem_set hq2 with h2 | rfl
                · exact hx q2 h2
                · rintro ⟨h1, h2, h3⟩
                  exact hx q (List.get?_mem hg) ⟨h1, h2, hf q.2 h3⟩
              · have := ih n hxs
                rw [updateAt, hg] at this
                exact this

/-- device_del never turns a record listed. -/
theorem del_listed_nonincreasing (s : DevState) (e : DevEvent)
    (h : (devStep s e).flags.listed = true) : s.flags.listed = true := by
  obtain ⟨r, ⟨l, rd, hl, iw⟩, p, hn⟩ := s
  cases e <;> cases l <;> cases p <;>
    simp_all [devStep, device_del_state]

/-- openUpd never changes listedness. -/
theorem openUpd_listed (s : DevState)
    (h : (openUpd s).flags.listed = true) : s.flags.listed = true := by
  obtain ⟨r, ⟨l, rd, hl, iw⟩, p, hn⟩ := s
  cases rd <;> simp_all [openUpd]

/-- closeUpd never changes listedness. -/
theorem closeUpd_listed (s : DevState)
    (h : (closeUpd s).flags.listed = true) : s.flags.listed = true := by
  obtain ⟨r, ⟨l, rd, hl, iw⟩, p, hn⟩ := s
  by_cases hh : 0 < hn <;> simp_all [closeUpd]

/-- Every registry transition preserves the uniqueness invariant. -/
theorem listedUniq_step (reg : List (String × DevState)) (e : RegEvent)
    (hu : listedUniq reg) : listedUniq (regStep reg e) := by
  cases e with
  | found name b => exact listedUniq_found reg name b hu
  | removed name =>
      rw [regStep]
      exact listedUniq_regUpdate _ (fun s => del_listed_nonincreasing s .del)
        reg name hu
  | fetchDone i e2 =>
      rw [regStep]
      exact listedUniq_updateAt _ (fun s => del_listed_nonincreasing s e2)
        reg i hu
  | openDev name =>
      rw [regStep]
      exact listedUniq_regUpdate _ openUpd_listed reg name hu
  | closeDev i =>
      rw [regStep]
      exact listedUniq_updateAt _ closeUpd_listed reg i hu
  | purge =>
      rw [regStep]
      refine List.Pairwise.map _ ?_ hu
      intro a b hab
      rintro ⟨h1, h2, h3⟩
      exact hab ⟨h1, del_listed_nonincreasing a.2 .del h2,
        del_listed_nonincreasing b.2 .del h3⟩

/-- Every reachable registry satisfies the uniqueness invariant. -/
theorem regRun_listedUniq (es : List RegEvent) : listedUniq (regRun es) := by
  have main : ∀ (es2 : List RegEvent) (reg : List (String × DevState)),
      listedUniq reg → listedUniq (es2.foldl regStep reg) := by
    intro es2
    induction es2 with
    | nil => intro reg h; simpa using h
    | cons e rest ih =>
        intro reg h
        exact ih (regStep reg e) (listedUniq_step reg e h)
  exact main es [] (by simp [listedUniq])

/-- C10: in every reachable registry, device_open(name) yields a handle
exactly when a record with that name is listed in the registry with its
Ready flag set (an unknown, still-probing, init-waiting or halted device
yields none), and the handle it yields is the found record with its
reference count incremented by one. -/
theorem device_open_iff_listed_ready (es : List RegEvent) (name : String) :
    ((device_open (regRun es) name).isSome = true ↔
      ∃ p ∈ regRun es, p.1 = name ∧ p.2.flags.listed = true ∧
        p.2.flags.ready = true) ∧
    (∀ s, device_open (regRun es) name = some s →
      ∃ s0, device_find (regRun es) name = some s0 ∧ s0.flags.ready = true ∧
        s = device_ref s0 ∧ s.refcnt = s0.refcnt + 1) := by
  constructor
  · constructor
    · intro h
      rw [device_open_eq_find] at h
      cases hf : device_find (regRun es) name with
      | none => rw [hf] at h; simp at h
      | some s0 =>
          rw [hf, Option.some_bind] at h
          by_cases hr : s0.flags.ready = true
          · rcases device_find_mem hf with ⟨hm, hl⟩
            exact ⟨(name, s0), hm, rfl, hl, hr⟩
          · rw [if_neg hr] at h; simp at h
    · rintro ⟨p, hp, hn, hl, hr⟩
      rw [device_open_eq_of_mem (regRun_listedUniq es) p hp hn hl hr]
      rfl
  · intro s h
    rw [device_open_eq_find] at h
    cases hf : device_find (regRun es) name with
    | none => rw [hf] at h; simp at h
    | some s0 =>
        rw [hf, Option.some_bind] at h
        by_cases hr : s0.flags.ready = true
        · rw [if_pos hr] at h
          rcases Option.some.inj h with rfl
          exact ⟨s0, rfl, hr, rfl, rfl⟩
        · rw [if_neg hr] at h; simp at h

/-- Witness for device_open_iff_listed_ready: after a device is found and
its capability fetch succeeds, opening it yields the record with one more
reference. -/
theorem device_open_iff_listed_ready_witness :
    device_open (regRun [RegEvent.found "x" false,
        RegEvent.fetchDone 0 .fetchSuccess]) "x" =
      some (device_ref (devStep (devInit false) .fetchSuccess)) ∧
    ∃ s0, device_find (regRun [RegEvent.found "x" false,
        RegEvent.fetchDone 0 .fetchSuccess]) "x" = some s0 ∧
      s0.flags.ready = true ∧
      device_ref (devStep (devInit false) .fetchSuccess) = device_ref s0 ∧
      (device_ref (devStep (devInit false) .fetchSuccess)).refcnt =
        s0.refcnt + 1 := by
  have hopen : device_open (regRun [RegEvent.found "x" false,
      RegEvent.fetchDone 0 .fetchSuccess]) "x" =
      some (device_ref (devStep (devInit false) .fetchSuccess)) := by
    decide
  exact ⟨hopen,
    (device_open_iff_listed_ready
      [RegEvent.found "x" false, RegEvent.fetchDone 0 .fetchSuccess] "x").2
      (device_ref (devStep (devInit false) .fetchSuccess)) hopen⟩

/-- The current option selection of a device (the opt_* fields of struct
device). -/
structure OptState where
  opt_src : Nat
  opt_colormode : Int
  opt_resolution : Int
  opt_tl_x : Int
  opt_tl_y : Int
  opt_br_x : Int
  opt_br_y : Int
deriving DecidableEq, Repr

/-- Sentinel OPT_COLORMODE_UNKNOWN passed to the color-mode chooser. -/
def OPT_COLORMODE_UNKNOWN : Int := -1

/-- Constant DEVICE_DEFAULT_RESOLUTION, DPI. -/
def DEVICE_DEFAULT_RESOLUTION : Int := 300

/-- device_set_source: record the source, let the devcaps choosers (the
external devcaps module's devcaps_source_choose_colormode and
devcaps_source_choose_resolution, which enter as parameters) pick the
color mode from OPT_COLORMODE_UNKNOWN and the resolution from the 300 DPI
default, then set the window to top-left (0,0) and bottom-right at the
maxima of the source's bottom-right ranges. -/
def device_set_source (chooseColormode : DevcapsSource → Int → Int)
    (chooseResolution : DevcapsSource → Int → Int)
    (caps : DevCaps) (opt_src : Nat) (st : OptState) : OptState :=
  match caps.src.getD opt_src none with
  | some src =>
      ⟨opt_src,
       chooseColormode src OPT_COLORMODE_UNKNOWN,
       chooseResolution src DEVICE_DEFAULT_RESOLUTION,
       0, 0,
       src.br_x_range.rmax, src.br_y_range.rmax⟩
  | none => st

/-- The initial-source scan of device_scanner_capabilities_callback: the
first index whose profile is present (the loop increments past every
absent slot; an all-absent table trips the g_assert). -/
def choose_initial_source : List (Option DevcapsSource) → Nat
  | [] => 0
  | some _ :: _ => 0
  | none :: rest => choose_initial_source rest + 1

/-- The success branch of device_scanner_capabilities_callback: pick the
initial source and derive every dependent default through
device_set_source. -/
def capabilities_success (chooseColormode : DevcapsSource → Int → Int)
    (chooseResolution : DevcapsSource → Int → Int)
    (caps : DevCaps) (st : OptState) : OptState :=
  device_set_source chooseColormode chooseResolution caps
    (choose_initial_source caps.src) st

/-- Helper: every index below the chosen initial source holds an absent
profile. -/
theorem choose_initial_source_first :
    ∀ (l : List (Option DevcapsSource)) (j : Nat),
      j < choose_initial_source l → l.getD j none = none := by
  intro l
  induction l with
  | nil => intro j hj; simp [choose_initial_source] at hj
  | cons x rest ih =>
      intro j hj
      cases x with
      | some s => simp [choose_initial_source] at hj
      | none =>
          cases j with
          | zero => simp
          | succ n =>
              rw [choose_initial_source] at hj
              have := ih n (by omega)
              simpa using this

/-- A source whose top-left x range starts at 5 rather than 0, as the
protocol permits. -/
def exOffsetSource : DevcapsSource :=
  ⟨[1], [300], ⟨5, 100, 0⟩, ⟨0, 300, 0⟩, ⟨5, 200, 0⟩, ⟨0, 300, 0⟩⟩

/-- Capability record whose only source is exOffsetSource. -/
def exOffsetCaps : DevCaps := ⟨"V", "M", [some exOffsetSource]⟩

/-- An arbitrary pre-existing option selection. -/
def exOptStart : OptState := ⟨0, 0, 0, 0, 0, 0, 0⟩

/-- C6 counterexample: the code sets the default top-left corner to 0, not
to the minimum of the source's top-left geometry range; with a source
whose tl_x range is [5,100] the resulting opt_tl_x is 0 while the range
minimum is 5, so the claim's "top-left at the range minimum" fails. -/
theorem capabilities_success_tl_not_range_min :
    (capabilities_success (fun _ c => c) (fun _ r => r)
      exOffsetCaps exOptStart).opt_tl_x = 0 ∧
    exOffsetSource.tl_x_range.rmin = 5 ∧
    (capabilities_success (fun _ c => c) (fun _ r => r)
      exOffsetCaps exOptStart).opt_tl_x ≠ exOffsetSource.tl_x_range.rmin := by
  refine ⟨rfl, rfl, ?_⟩
  decide

/-- C6 (amended): on structural success the selected initial source is the
lowest OPT_SOURCE index with a present profile; selecting it sets the
color mode via the source's color-mode chooser seeded with
OPT_COLORMODE_UNKNOWN, the resolution via the source's resolution chooser
seeded with the fixed 300 DPI default, the top-left corner to the origin
(0,0), and the bottom-right corner to the maxima of the source's
bottom-right geometry ranges. -/
theorem capabilities_success_defaults
    (chooseColormode chooseResolution : DevcapsSource → Int → Int)
    (caps : DevCaps) (st : OptState) (src : DevcapsSource)
    (h : caps.src.getD (choose_initial_source caps.src) none = some src) :
    (∀ j < choose_initial_source caps.src, caps.src.getD j none = none) ∧
    capabilities_success chooseColormode chooseResolution caps st =
      ⟨choose_initial_source caps.src,
       chooseColormode src OPT_COLORMODE_UNKNOWN,
       chooseResolution src DEVICE_DEFAULT_RESOLUTION,
       0, 0,
       src.br_x_range.rmax, src.br_y_range.rmax⟩ := by
  refine ⟨fun j hj => choose_initial_source_first caps.src j hj, ?_⟩
  rw [capabilities_success, device_set_source, h]

/-- Witness for capabilities_success_defaults at a concrete capability
record. -/
theorem capabilities_success_defaults_witness :
    exOffsetCaps.src.getD (choose_initial_source exOffsetCaps.src) none =
      some exOffsetSource ∧
    capabilities_success (fun _ c => c) (fun _ r => r) exOffsetCaps exOptStart =
      ⟨choose_initial_source exOffsetCaps.src,
       (fun (_ : DevcapsSource) (c : Int) => c) exOffsetSource OPT_COLORMODE_UNKNOWN,
       (fun (_ : DevcapsSource) (r : Int) => r) exOffsetSource DEVICE_DEFAULT_RESOLUTION,
       0, 0,
       exOffsetSource.br_x_range.rmax, exOffsetSource.br_y_range.rmax⟩ :=
  ⟨by decide,
    (capabilities_success_defaults (fun _ c => c) (fun _ r => r)
      exOffsetCaps exOptStart exOffsetSource (by decide)).2⟩

/-- The option identifiers of the option table, in descriptor order. -/
inductive DeviceOption where
  | OPT_NUM_OPTIONS
  | OPT_GROUP_STANDARD
  | OPT_SCAN_RESOLUTION
  | OPT_SCAN_COLORMODE
  | OPT_SCAN_SOURCE
  | OPT_GROUP_GEOMETRY
  | OPT_SCAN_TL_X
  | OPT_SCAN_TL_Y
  | OPT_SCAN_BR_X
  | OPT_SCAN_BR_Y
deriving DecidableEq, Repr

/-- A value written to the caller's buffer by device_get_option. -/
inductive OptValue where
  | word (w : Int)
  | str (s : String)
deriving DecidableEq, Repr

/-- SANE status codes used by the getter. -/
inductive SaneStatus where
  | good
  | inval
deriving DecidableEq, Repr

/-- NUM_OPTIONS as stored for OPT_NUM_OPTIONS. -/
def NUM_OPTIONS : Int := 10

/-- device_get_option, switch arm by switch arm: note that the
OPT_SCAN_BR_X and OPT_SCAN_BR_Y arms read opt_tl_x and opt_tl_y, exactly
as the C source does; the group options fall to the default arm and
return SANE_STATUS_INVAL. The colormode-to-SANE and source-to-SANE string
tables are external and enter as parameters. -/
def device_get_option (colormodeToSane : Int → String)
    (sourceToSane : Nat → String) (st : OptState) :
    DeviceOption → SaneStatus × Option OptValue
  | .OPT_NUM_OPTIONS => (.good, some (.word NUM_OPTIONS))
  | .OPT_SCAN_RESOLUTION => (.good, some (.word st.opt_resolution))
  | .OPT_SCAN_COLORMODE => (.good, some (.str (colormodeToSane st.opt_colormode)))
  | .OPT_SCAN_SOURCE => (.good, some (.str (sourceToSane st.opt_src)))
  | .OPT_SCAN_TL_X => (.good, some (.word st.opt_tl_x))
  | .OPT_SCAN_TL_Y => (.good, some (.word st.opt_tl_y))
  | .OPT_SCAN_BR_X => (.good, some (.word st.opt_tl_x))
  | .OPT_SCAN_BR_Y => (.good, some (.word st.opt_tl_y))
  | .OPT_GROUP_STANDARD => (.inval, none)
  | .OPT_GROUP_GEOMETRY => (.inval, none)

/-- Option selection whose bottom-right corner differs from its top-left
corner. -/
def exSelection : OptState := ⟨0, 1, 300, 0, 0, 100, 200⟩

/-- C5: the claim is what the code intends but the code is wrong: the
OPT_SCAN_BR_X and OPT_SCAN_BR_Y arms of device_get_option read opt_tl_x
and opt_tl_y instead of opt_br_x and opt_br_y; on a selection with
top-left (0,0) and bottom-right (100,200) the getter returns 0 for
OPT_SCAN_BR_X and 0 for OPT_SCAN_BR_Y, not the stored 100 and 200. -/
theorem device_get_option_br_reads_tl :
    device_get_option (fun _ => "") (fun _ => "") exSelection .OPT_SCAN_BR_X =
      (.good, some (.word exSelection.opt_tl_x)) ∧
    device_get_option (fun _ => "") (fun _ => "") exSelection .OPT_SCAN_BR_Y =
      (.good, some (.word exSelection.opt_tl_y)) ∧
    exSelection.opt_tl_x = 0 ∧ exSelection.opt_br_x = 100 ∧
    exSelection.opt_tl_y = 0 ∧ exSelection.opt_br_y = 200 ∧
    device_get_option (fun _ => "") (fun _ => "") exSelection .OPT_SCAN_BR_X ≠
      (.good, some (.word exSelection.opt_br_x)) ∧
    device_get_option (fun _ => "") (fun _ => "") exSelection .OPT_SCAN_BR_Y ≠
      (.good, some (.word exSelection.opt_br_y)) := by
  refine ⟨rfl, rfl, rfl, rfl, rfl, rfl, ?_, ?_⟩ <;> decide

end Airscan
